import Mathlib

/-!
Verification of the globed central-server database migration script
(`db-migrate.py`).  The script is embedded shallowly: SQL rows become
structures, Python dicts become insertion-ordered association lists,
in-place mutation becomes explicit state passing, `print` warnings become
an accumulated list of strings, and a raised exception becomes
`Except.error`.  Timestamps and ids are `Int`; nullable columns are
`Option`.
-/

namespace DbMigrate

/-- Python `x or 0` for an optional integer: `None` and `0` are falsy. -/
def pyOrZero (o : Option Int) : Int := o.getD 0

/-- A row of the legacy `users` table, in the order selected by
`migrate_users`: account_id, user_name, name_color, is_whitelisted,
user_roles, admin_password_hash. -/
structure UserRow where
  uid : Int
  uname : String
  ncolor : String
  whitelisted : Int
  roles_str : String
  admin_phash : String
  deriving Repr, DecidableEq

/-- A row of the legacy `punishments` table, in the order selected by
`migrate_punishments`: punishment_id, account_id, type, reason,
expires_at, issued_by, issued_at, type2. -/
structure PunRow where
  pid : Int
  aid : Int
  ptype : String
  reason : String
  expires_at : Int
  issued_by : Option Int
  issued_at : Option Int
  type2 : Option String
  deriving Repr, DecidableEq

/-- `OldUser` dataclass. -/
structure OldUser where
  id : Int
  username : String
  name_color : String
  whitelisted : Bool
  roles : List String
  admin_password_hash : String
  deriving Repr, DecidableEq

/-- `NewUser` dataclass. -/
structure NewUser where
  id : Int
  cube : Int
  color1 : Int
  color2 : Int
  glow_color : Int
  username : String
  name_color : String
  whitelisted : Bool
  admin_password_hash : String
  roles : List String
  active_mute : Int
  active_ban : Int
  active_room_ban : Int
  discord_id : Option Int
  deriving Repr, DecidableEq

/-- `NewPunishment` dataclass (type already resolved via `type2 or type`). -/
structure NewPunishment where
  id : Int
  account_id : Int
  type : String
  reason : String
  expires_at : Int
  issued_by : Option Int
  issued_at : Option Int
  deriving Repr, DecidableEq

/-- `AuditLog` dataclass, with the values `migrate_punishments` actually
stores in it. -/
structure AuditLog where
  account_id : Int
  type : String
  timestamp : Int
  target_account_id : Int
  message : String
  expires_at : Int
  deriving Repr, DecidableEq

/-- `OldDiscordLink` dataclass: a row of the `linked_users` table
(discord_id, gd_id). -/
structure OldDiscordLink where
  discord_id : Int
  gd_id : Int
  deriving Repr, DecidableEq

/-- `OldDiscordRole` dataclass: a row of the `roles` table; read but unused. -/
structure OldDiscordRole where
  id : String
  discord_id : Int
  deriving Repr, DecidableEq

/-! ## Helpers: Python `str.split(sep)` and `int(...)` -/

/-- Accumulating worker for `splitChar`. -/
def splitCharAux (sep : Char) : List Char → List Char → List String
  | [], acc => [String.mk acc.reverse]
  | c :: rest, acc =>
    if c = sep then String.mk acc.reverse :: splitCharAux sep rest []
    else splitCharAux sep rest (c :: acc)

/-- Python `s.split(sep)` for a one-character separator: splits at every
occurrence, keeping empty pieces (`"".split(sep) == [""]`). -/
def splitChar (sep : Char) (s : String) : List String :=
  splitCharAux sep s.data []

/-- Digit-sequence value, `none` on a non-digit. -/
def digitsVal : List Char → Nat → Option Nat
  | [], acc => some acc
  | c :: rest, acc =>
    if c.isDigit then digitsVal rest (acc * 10 + (c.toNat - 48)) else none

/-- Python `int(s)`: an optional sign followed by at least one digit;
anything else raises `ValueError` (`none`). -/
def pyToInt? (s : String) : Option Int :=
  match s.data with
  | [] => none
  | '-' :: rest =>
    if rest.isEmpty then none else (digitsVal rest 0).map (fun n => -(n : Int))
  | '+' :: rest =>
    if rest.isEmpty then none else (digitsVal rest 0).map (fun n => (n : Int))
  | l => (digitsVal l 0).map (fun n => (n : Int))

/-! ## Python dicts as insertion-ordered association lists -/

/-- Key set membership of a Python dict (`k in d`). -/
def containsKey (k : Int) : List (Int × α) → Bool
  | [] => false
  | e :: rest => if e.1 = k then true else containsKey k rest

/-- Dict read (`d[k]`), as an option. -/
def lookupA (k : Int) : List (Int × α) → Option α
  | [] => none
  | e :: rest => if e.1 = k then some e.2 else lookupA k rest

/-- In-place mutation of the value stored at an existing key (the script
mutates dataclass instances held in the dict). -/
def updateA (k : Int) (f : α → α) : List (Int × α) → List (Int × α)
  | [] => []
  | e :: rest => (if e.1 = k then (e.1, f e.2) else e) :: updateA k f rest

/-- Dict write `d[k] = v`: overwrite in place if the key exists, else
append (Python dicts preserve first-insertion order). -/
def dinsert (k : Int) (v : α) (l : List (Int × α)) : List (Int × α) :=
  if containsKey k l then updateA k (fun _ => v) l else l ++ [(k, v)]

/-! ## migrate_users -/

/-- Parsing of the delimited role string:
`roles_str.split(",") if roles_str else []`. -/
def parseRoles (s : String) : List String :=
  if s = "" then [] else splitChar ',' s

/-- Construction of an `OldUser` from a legacy row (`migrate_users`,
first loop). -/
def oldUserOf (r : UserRow) : OldUser :=
  { id := r.uid
    username := r.uname
    name_color := r.ncolor
    whitelisted := r.whitelisted != 0
    roles := parseRoles r.roles_str
    admin_password_hash := r.admin_phash }

/-- Conversion of an `OldUser` to a `NewUser` (`migrate_users`,
second loop). -/
def newUserOf (u : OldUser) : NewUser :=
  { id := u.id
    cube := 0
    color1 := 0
    color2 := 0
    glow_color := 0
    username := u.username
    name_color := u.name_color
    whitelisted := u.whitelisted
    admin_password_hash := u.admin_password_hash
    roles := u.roles
    active_mute := 0
    active_ban := 0
    active_room_ban := 0
    discord_id := none }

/-- `migrate_users`: builds the old-user dict from the rows, then the
new-user dict keyed by account id. -/
def migrateUsers (rows : List UserRow) : List (Int × NewUser) :=
  let old := rows.foldl (fun acc r => dinsert r.uid (oldUserOf r) acc) []
  old.foldl (fun acc e => dinsert e.2.id (newUserOf e.2) acc) []

/-! ## migrate_punishments -/

/-- Effective punishment type: `type2 or ptype` (Python `or`: `None` and
the empty string are falsy). -/
def effType (type2 : Option String) (ptype : String) : String :=
  match type2 with
  | none => ptype
  | some s => if s = "" then ptype else s

/-- Row-to-`NewPunishment` conversion (first loop of
`migrate_punishments`). -/
def convPun (r : PunRow) : NewPunishment :=
  { id := r.pid
    account_id := r.aid
    type := effType r.type2 r.ptype
    reason := r.reason
    expires_at := r.expires_at
    issued_by := r.issued_by
    issued_at := r.issued_at }

/-- The expiry test `p.expires_at != 0 and p.expires_at < now`. -/
def expired (now : Int) (p : NewPunishment) : Bool :=
  p.expires_at != 0 && p.expires_at < now

/-- The type dispatch of the reconciliation loop: which active field a
punishment sets, or the `ValueError` for an unknown type. -/
def punSetter (p : NewPunishment) : Except String (NewUser → NewUser) :=
  if p.type = "mute" then .ok (fun u => { u with active_mute := p.id })
  else if p.type = "ban" then .ok (fun u => { u with active_ban := p.id })
  else if p.type = "roomban" then .ok (fun u => { u with active_room_ban := p.id })
  else .error ("Unknown punishment type: " ++ p.type)

/-- The orphan-punishment warning printed by the reconciliation loop. -/
def orphanPunWarning (p : NewPunishment) : String :=
  "Warning: Punishment ID " ++ toString p.id ++ " for non-existent user ID "
    ++ toString p.account_id

/-- The `for p in punishments` reconciliation loop of
`migrate_punishments`: skips expired punishments, sets the matching
active field for users present in the dict, warns on orphans, raises on
an unknown type. -/
def setActive (now : Int) : List NewPunishment → List (Int × NewUser) →
    List String → Except String (List (Int × NewUser) × List String)
  | [], us, ws => .ok (us, ws)
  | p :: rest, us, ws =>
    if expired now p then setActive now rest us ws
    else if containsKey p.account_id us then
      match punSetter p with
      | .error e => .error e
      | .ok f => setActive now rest (updateA p.account_id f us) ws
    else setActive now rest us (ws ++ [orphanPunWarning p])

/-- The audit-log entry synthesized for a punishment (second loop of
`migrate_punishments`). -/
def auditOf (p : NewPunishment) : AuditLog :=
  { account_id := pyOrZero p.issued_by
    type := p.type
    timestamp := pyOrZero p.issued_at
    target_account_id := p.account_id
    message := p.reason
    expires_at := p.expires_at }

/-- `migrate_punishments`: converts every row, runs the reconciliation
loop (which may raise), then synthesizes one audit entry per punishment.
Returns the mutated user dict, the punishments, the audit logs and the
warnings printed. -/
def migratePunishments (now : Int) (rows : List PunRow)
    (users : List (Int × NewUser)) :
    Except String (List (Int × NewUser) × List NewPunishment × List AuditLog × List String) :=
  let puns := rows.map convPun
  match setActive now puns users [] with
  | .error e => .error e
  | .ok (us, ws) => .ok (us, puns, puns.map auditOf, ws)

/-! ## migrate_discord_links -/

/-- The unmatched-link warning printed by `migrate_discord_links`. -/
def orphanLinkWarning (link : OldDiscordLink) : String :=
  "Warning: Discord link for GD ID " ++ toString link.gd_id ++ " ("
    ++ toString link.discord_id ++ ") has no matching user"

/-- The `for link in old_links` loop of `migrate_discord_links`.  The
membership test reads the module-level `new_users` dict (`globalUsers`)
while the mutation targets the `users` parameter; `users[k]` on a missing
key is a `KeyError`. -/
def mergeLinks (globalUsers : List (Int × NewUser)) :
    List OldDiscordLink → List (Int × NewUser) → List String →
    Except String (List (Int × NewUser) × List String)
  | [], us, ws => .ok (us, ws)
  | link :: rest, us, ws =>
    if containsKey link.gd_id globalUsers then
      if containsKey link.gd_id us then
        mergeLinks globalUsers rest
          (updateA link.gd_id (fun u => { u with discord_id := some link.discord_id }) us) ws
      else .error "KeyError"
    else mergeLinks globalUsers rest us (ws ++ [orphanLinkWarning link])

/-- `migrate_discord_links`: a no-op when no link source is configured
(`roles_cur` is `None`), otherwise reads the role rows (unused) and the
link rows and merges the links into the user dict. -/
def migrateDiscordLinks (src : Option (List OldDiscordRole × List OldDiscordLink))
    (globalUsers users : List (Int × NewUser)) :
    Except String (List (Int × NewUser) × List String) :=
  match src with
  | none => .ok (users, [])
  | some (_roles, links) => mergeLinks globalUsers links users []

/-! ## fetch_level_data -/

/-- The alternating key/value pairing of the primary segment: Python's
`for part in data.split(":")` loop, which drops a trailing dangling key. -/
def pairUp : List String → List (String × String)
  | k :: v :: rest => (k, v) :: pairUp rest
  | _ => []

/-- Python dict read over the pairs: a later binding of the same key
overwrites an earlier one. -/
def dictGet (l : List (String × String)) (k : String) : Option String :=
  ((l.filter (fun e => e.1 = k)).getLast?).map (·.2)

/-- The response-parsing half of `fetch_level_data`, acting on the HTTP
response body.  Unpacking, key lookups, `int(...)` conversions and the
two asserts each fail as a fatal error. -/
def parseLevelResponse (text : String) : Except String (String × Int × String) :=
  match splitChar '#' text with
  | data :: extra :: _ =>
    let parts := pairUp (splitChar ':' data)
    match dictGet parts "6" with
    | none => .error "KeyError: 6"
    | some v6 =>
      match pyToInt? v6 with
      | none => .error "ValueError: invalid literal for int"
      | some playerId =>
        match splitChar ':' extra with
        | e0 :: username :: accountIdStr :: _ =>
          match pyToInt? e0 with
          | none => .error "ValueError: invalid literal for int"
          | some e0v =>
            if e0v = playerId then
              match dictGet parts "2" with
              | none => .error "KeyError: 2"
              | some name =>
                match pyToInt? accountIdStr with
                | none => .error "ValueError: invalid literal for int"
                | some accountId => .ok (name, accountId, username)
            else .error "AssertionError: id mismatch"
        | _ => .error "AssertionError: len(extra_parts) >= 3"
  | _ => .error "ValueError: not enough values to unpack"

/-- `fetch_level_data`.  `tokenEnv` is `os.environ.get("GDPROXY_TOKEN")`
(absent = `none`, defaulted to `""`); the network is an oracle from level
id to an optional response body, `none` standing for an HTTP failure
(`raise_for_status`).  With no token configured the function returns
`("", 0, "")` before the oracle is ever consulted. -/
def fetchLevelData (tokenEnv : Option String) (net : Int → Option String)
    (levelId : Int) : Except String (String × Int × String) :=
  let token := tokenEnv.getD ""
  if token = "" then .ok ("", 0, "")
  else
    match net levelId with
    | none => .error "HTTPError"
    | some text => parseLevelResponse text

/-! ## push_new_users / push_features -/

/-- A row of the target `user` table, columns in `INSERT` order.  The
`name_color` column is written with the literal `NULL` placeholder. -/
structure UserTableRow where
  account_id : Int
  cube : Int
  color1 : Int
  color2 : Int
  glow_color : Int
  username : String
  name_color : Option String
  is_whitelisted : Int
  admin_password_hash : String
  roles : String
  active_mute : Int
  active_ban : Int
  active_room_ban : Int
  discord_id : Option Int
  deriving Repr, DecidableEq

/-- A row of the target `punishment` table (`issued_by` is inserted as
`pun.issued_by or 0`). -/
structure PunTableRow where
  id : Int
  account_id : Int
  type : String
  reason : String
  expires_at : Int
  issued_by : Int
  issued_at : Option Int
  deriving Repr, DecidableEq

/-- The target store handled by `new_conn`: user, punishment and
audit-log tables. -/
structure TargetDB where
  user : List UserTableRow
  punishment : List PunTableRow
  audit_log : List AuditLog
  deriving Repr, DecidableEq

/-- The user row inserted by `push_new_users` for one `NewUser`. -/
def userRowOf (u : NewUser) : UserTableRow :=
  { account_id := u.id
    cube := u.cube
    color1 := u.color1
    color2 := u.color2
    glow_color := u.glow_color
    username := u.username
    name_color := none
    is_whitelisted := if u.whitelisted then 1 else 0
    admin_password_hash := u.admin_password_hash
    roles := String.intercalate "," u.roles
    active_mute := u.active_mute
    active_ban := u.active_ban
    active_room_ban := u.active_room_ban
    discord_id := u.discord_id }

/-- The punishment row inserted by `push_new_users`. -/
def punRowOf (p : NewPunishment) : PunTableRow :=
  { id := p.id
    account_id := p.account_id
    type := p.type
    reason := p.reason
    expires_at := p.expires_at
    issued_by := pyOrZero p.issued_by
    issued_at := p.issued_at }

/-- `push_new_users`: deletes every row of the three tables, then inserts
one row per user (iterating the dict's values), per punishment and per
audit log, then commits. -/
def pushNewUsers (_db : TargetDB) (users : List (Int × NewUser))
    (puns : List NewPunishment) (logs : List AuditLog) : TargetDB :=
  { user := users.map (fun e => userRowOf e.2)
    punishment := puns.map punRowOf
    audit_log := logs }

/-- `NewFeaturedLevel` dataclass (`feature_duration` is the annotation
`None`, always absent). -/
structure NewFeaturedLevel where
  level_id : Int
  name : String
  author : Int
  author_name : String
  featured_at : Int
  rate_tier : Int
  feature_duration : Option Int
  deriving Repr, DecidableEq

/-- The target store handled by `feat_conn`. -/
structure FeatDB where
  featured_level : List NewFeaturedLevel
  deriving Repr, DecidableEq

/-- `push_features`: returns untouched when the feature cursor is not
configured, otherwise deletes all rows and inserts every migrated
feature, then commits. -/
def pushFeatures (featCur : Bool) (db : FeatDB)
    (features : List NewFeaturedLevel) : FeatDB :=
  if featCur then { featured_level := features } else db

/-! ## The user-side pipeline (module level of the script)

`new_users = migrate_users(); migrate_punishments(new_users);
migrate_discord_links(new_users); push_new_users(...)`.  A raised
exception aborts the run before `push_new_users`, so on error the target
store keeps its previous contents. -/

/-- The user/punishment/audit half of the script: an error anywhere
leaves the target store unreplaced. -/
def runUserPush (now : Int) (userRows : List UserRow) (punRows : List PunRow)
    (src : Option (List OldDiscordRole × List OldDiscordLink))
    (db : TargetDB) : Except String TargetDB :=
  let users := migrateUsers userRows
  match migratePunishments now punRows users with
  | .error e => .error e
  | .ok (us1, puns, logs, _) =>
    match migrateDiscordLinks src us1 us1 with
    | .error e => .error e
    | .ok (us2, _) => .ok (pushNewUsers db us2 puns logs)

/-! ## Association-list lemmas -/

theorem containsKey_updateA (k k' : Int) (f : α → α) (l : List (Int × α)) :
    containsKey k (updateA k' f l) = containsKey k l := by
  induction l with
  | nil => rfl
  | cons e rest ih =>
    by_cases h : e.1 = k'
    · simp [containsKey, updateA, h, ih]
    · simp [containsKey, updateA, h, ih]

theorem lookupA_updateA_self (k : Int) (f : α → α) (l : List (Int × α)) :
    lookupA k (updateA k f l) = (lookupA k l).map f := by
  induction l with
  | nil => rfl
  | cons e rest ih =>
    by_cases h : e.1 = k
    · simp [lookupA, updateA, h]
    · simp [lookupA, updateA, h, ih]

theorem lookupA_updateA_ne (k k' : Int) (hk : k ≠ k') (f : α → α)
    (l : List (Int × α)) : lookupA k (updateA k' f l) = lookupA k l := by
  induction l with
  | nil => rfl
  | cons e rest ih =>
    by_cases h : e.1 = k'
    · have hek : e.1 ≠ k := by rw [h]; exact fun hkk => hk hkk.symm
      simp [lookupA, updateA, h, hek, Ne.symm hk, ih]
    · by_cases hek : e.1 = k
      · simp [lookupA, updateA, h, hek, hk, ih]
      · simp [lookupA, updateA, h, hek, ih]

theorem lookupA_some_of_containsKey {k : Int} {l : List (Int × α)}
    (h : containsKey k l = true) : ∃ v, lookupA k l = some v := by
  induction l with
  | nil => simp [containsKey] at h
  | cons e rest ih =>
    by_cases he : e.1 = k
    · exact ⟨e.2, by simp [lookupA, he]⟩
    · have h' : containsKey k rest = true := by
        simpa [containsKey, he] using h
      obtain ⟨v, hv⟩ := ih h'
      exact ⟨v, by simp [lookupA, he, hv]⟩

theorem containsKey_of_lookupA_some {k : Int} {l : List (Int × α)} {v : α}
    (h : lookupA k l = some v) : containsKey k l = true := by
  induction l with
  | nil => simp [lookupA] at h
  | cons e rest ih =>
    by_cases he : e.1 = k
    · simp [containsKey, he]
    · simp only [lookupA, if_neg he] at h
      simp [containsKey, he, ih h]

/-- A key-preserving value map commutes out of `containsKey`. -/
theorem containsKey_map_strip (k : Int) (g : α → β) (l : List (Int × α)) :
    containsKey k (l.map (fun e => (e.1, g e.2))) = containsKey k l := by
  induction l with
  | nil => rfl
  | cons e rest ih =>
    by_cases h : e.1 = k
    · simp [containsKey, h]
    · simp [containsKey, h, ih]

/-- `updateA` with a mutation `f` that a projection `g` cannot see is
invisible after mapping `g` over the values. -/
theorem map_strip_updateA (k : Int) (f : α → α) (g : α → β)
    (hf : ∀ u, g (f u) = g u) (l : List (Int × α)) :
    (updateA k f l).map (fun e => (e.1, g e.2)) = l.map (fun e => (e.1, g e.2)) := by
  induction l with
  | nil => rfl
  | cons e rest ih =>
    by_cases h : e.1 = k
    · simp [updateA, h, hf, ih]
    · simp [updateA, h, ih]

/-! ## Facts about `migrate_users` output -/

/-- Values of an `updateA` all satisfy `P` when the old values and every
mutated value do. -/
theorem updateA_values (P : α → Prop) {f : α → α} {l : List (Int × α)} {k : Int}
    (hl : ∀ e ∈ l, P e.2) (hf : ∀ u, P (f u)) : ∀ e ∈ updateA k f l, P e.2 := by
  induction l with
  | nil => intro e he; simp [updateA] at he
  | cons a rest ih =>
    intro e he
    have hl' : ∀ e ∈ rest, P e.2 := fun e h => hl e (List.mem_cons_of_mem _ h)
    rcases List.mem_cons.mp he with h | h
    · by_cases ha : a.1 = k
      · subst h; simpa [ha] using hf a.2
      · subst h; simpa [ha] using hl a (List.mem_cons_self a rest)
    · exact ih hl' e h

/-- Every value a `dinsert` chain can put in the dict satisfies any
property satisfied by the inserted values and the initial values. -/
theorem dinsert_values (P : α → Prop) {l : List (Int × α)} {k : Int} {v : α}
    (hl : ∀ e ∈ l, P e.2) (hv : P v) : ∀ e ∈ dinsert k v l, P e.2 := by
  intro e he
  by_cases hc : containsKey k l
  · simp only [dinsert, if_pos hc] at he
    exact updateA_values P hl (fun _ => hv) e he
  · simp only [dinsert, if_neg hc] at he
    rcases List.mem_append.mp he with h | h
    · exact hl e h
    · simp only [List.mem_singleton] at h
      subst h
      exact hv

/-- All active-punishment ids of a freshly migrated user are zero. -/
theorem migrateUsers_active_zero (rows : List UserRow) :
    ∀ e ∈ migrateUsers rows,
      e.2.active_mute = 0 ∧ e.2.active_ban = 0 ∧ e.2.active_room_ban = 0 := by
  have key : ∀ (old : List (Int × OldUser)) (acc : List (Int × NewUser)),
      (∀ e ∈ acc, e.2.active_mute = 0 ∧ e.2.active_ban = 0 ∧ e.2.active_room_ban = 0) →
      ∀ e ∈ old.foldl (fun acc e => dinsert e.2.id (newUserOf e.2) acc) acc,
        e.2.active_mute = 0 ∧ e.2.active_ban = 0 ∧ e.2.active_room_ban = 0 := by
    intro old
    induction old with
    | nil => intro acc hacc; exact hacc
    | cons o rest ih =>
      intro acc hacc
      exact ih _ (dinsert_values
        (fun (u : NewUser) => u.active_mute = 0 ∧ u.active_ban = 0 ∧ u.active_room_ban = 0)
        hacc ⟨rfl, rfl, rfl⟩)
  exact key _ [] (by intro e he; simp at he)

/-! ## Reconciliation-loop lemmas -/

/-- The skip test, in the spec's wording: a punishment survives exactly
when its expiry is zero (permanent) or at least the reconciliation
timestamp. -/
theorem expired_eq_false_iff (now : Int) (p : NewPunishment) :
    expired now p = false ↔ (p.expires_at = 0 ∨ now ≤ p.expires_at) := by
  simp only [expired, Bool.and_eq_false_iff, bne_eq_false_iff_eq, decide_eq_false_iff_not,
    not_lt]

/-- An unknown effective type makes the dispatch raise. -/
theorem punSetter_error_of_unknown {p : NewPunishment}
    (h : p.type ∉ (["mute", "ban", "roomban"] : List String)) :
    punSetter p = .error ("Unknown punishment type: " ++ p.type) := by
  simp only [List.mem_cons, List.not_mem_nil, or_false, not_or] at h
  obtain ⟨h1, h2, h3⟩ := h
  simp [punSetter, h1, h2, h3]

/-- Inversion of a successful dispatch: the type is one of the three
known ones and the mutation is the corresponding field write. -/
theorem punSetter_ok_cases {p : NewPunishment} {f : NewUser → NewUser}
    (h : punSetter p = .ok f) :
    (p.type = "mute" ∧ f = fun u => { u with active_mute := p.id }) ∨
    (p.type = "ban" ∧ f = fun u => { u with active_ban := p.id }) ∨
    (p.type = "roomban" ∧ f = fun u => { u with active_room_ban := p.id }) := by
  unfold punSetter at h
  split_ifs at h with h1 h2 h3
  · injection h with hf
    exact Or.inl ⟨h1, hf.symm⟩
  · injection h with hf
    exact Or.inr (Or.inl ⟨h2, hf.symm⟩)
  · injection h with hf
    exact Or.inr (Or.inr ⟨h3, hf.symm⟩)

/-- The reconciliation loop over a concatenation runs the two halves in
sequence. -/
theorem setActive_append (now : Int) (l1 l2 : List NewPunishment)
    (us : List (Int × NewUser)) (ws : List String) :
    setActive now (l1 ++ l2) us ws =
      match setActive now l1 us ws with
      | .error e => .error e
      | .ok (us1, ws1) => setActive now l2 us1 ws1 := by
  induction l1 generalizing us ws with
  | nil => simp [setActive]
  | cons p rest ih =>
    cases he : expired now p with
    | true => simp [setActive, he, ih]
    | false =>
      cases hc : containsKey p.account_id us with
      | true =>
        cases hps : punSetter p with
        | error e => simp [setActive, he, hc, hps]
        | ok f => simp [setActive, he, hc, hps, ih]
      | false => simp [setActive, he, hc, ih]

/-- Erasing the three active-punishment ids. -/
def stripActive (u : NewUser) : NewUser :=
  { u with active_mute := 0, active_ban := 0, active_room_ban := 0 }

/-- A successful dispatch mutates nothing but the active ids. -/
theorem punSetter_strip {p : NewPunishment} {f : NewUser → NewUser}
    (h : punSetter p = .ok f) : ∀ u, stripActive (f u) = stripActive u := by
  intro u
  rcases punSetter_ok_cases h with ⟨_, rfl⟩ | ⟨_, rfl⟩ | ⟨_, rfl⟩ <;> rfl

/-- The reconciliation loop changes nothing in the user dict but the
active-punishment ids: keys, order and all other fields survive. -/
theorem setActive_strip (now : Int) {l : List NewPunishment}
    {us us' : List (Int × NewUser)} {ws ws' : List String}
    (h : setActive now l us ws = .ok (us', ws')) :
    us'.map (fun e => (e.1, stripActive e.2)) = us.map (fun e => (e.1, stripActive e.2)) := by
  induction l generalizing us ws with
  | nil =>
    simp only [setActive, Except.ok.injEq, Prod.mk.injEq] at h
    rw [h.1]
  | cons p rest ih =>
    cases he : expired now p with
    | true =>
      simp only [setActive, he, if_true] at h
      exact ih h
    | false =>
      cases hc : containsKey p.account_id us with
      | true =>
        cases hps : punSetter p with
        | error e => simp [setActive, he, hc, hps] at h
        | ok f =>
          simp only [setActive, he, hc, hps, Bool.false_eq_true, if_false, if_true] at h
          rw [ih h]
          exact map_strip_updateA p.account_id f stripActive (punSetter_strip hps) us
      | false =>
        simp only [setActive, he, hc, Bool.false_eq_true, if_false] at h
        exact ih h

/-- The reconciliation loop neither adds nor removes users. -/
theorem setActive_containsKey (now : Int) {l : List NewPunishment}
    {us us' : List (Int × NewUser)} {ws ws' : List String}
    (h : setActive now l us ws = .ok (us', ws')) (k : Int) :
    containsKey k us' = containsKey k us := by
  have hs := setActive_strip now h
  have h1 := containsKey_map_strip k stripActive us'
  have h2 := containsKey_map_strip k stripActive us
  rw [← h1, hs, h2]

/-- The spec's active-id validity predicate: `v` is the id of some
punishment in `l` for account `uid` with effective type `t` whose expiry
is zero or at least `now`. -/
def ActiveRef (now : Int) (l : List NewPunishment) (uid : Int) (t : String) (v : Int) : Prop :=
  ∃ p ∈ l, p.id = v ∧ p.account_id = uid ∧ p.type = t ∧
    (p.expires_at = 0 ∨ now ≤ p.expires_at)

theorem ActiveRef.weaken {now : Int} {l : List NewPunishment} {q : NewPunishment}
    {uid : Int} {t : String} {v : Int} (h : ActiveRef now l uid t v) :
    ActiveRef now (q :: l) uid t v := by
  obtain ⟨p, hp, rest⟩ := h
  exact ⟨p, List.mem_cons_of_mem q hp, rest⟩

/-- Source of every active id after the reconciliation loop: each of the
three fields either kept its initial value or records a punishment of the
processed list with the right account, type and a live expiry. -/
theorem setActive_active_src (now : Int) {l : List NewPunishment}
    {us us' : List (Int × NewUser)} {ws ws' : List String}
    (h : setActive now l us ws = .ok (us', ws')) :
    ∀ uid u', lookupA uid us' = some u' →
      ∃ u, lookupA uid us = some u ∧
        (u'.active_mute = u.active_mute ∨ ActiveRef now l uid "mute" u'.active_mute) ∧
        (u'.active_ban = u.active_ban ∨ ActiveRef now l uid "ban" u'.active_ban) ∧
        (u'.active_room_ban = u.active_room_ban ∨
          ActiveRef now l uid "roomban" u'.active_room_ban) := by
  induction l generalizing us ws with
  | nil =>
    simp only [setActive, Except.ok.injEq, Prod.mk.injEq] at h
    rw [← h.1]
    exact fun uid u' h' => ⟨u', h', Or.inl rfl, Or.inl rfl, Or.inl rfl⟩
  | cons p rest ih =>
    intro uid u' hl'
    cases he : expired now p with
    | true =>
      simp only [setActive, he, if_true] at h
      obtain ⟨u, hu, hm, hb, hr⟩ := ih h uid u' hl'
      exact ⟨u, hu, hm.imp_right ActiveRef.weaken, hb.imp_right ActiveRef.weaken,
        hr.imp_right ActiveRef.weaken⟩
    | false =>
      have hlive : p.expires_at = 0 ∨ now ≤ p.expires_at :=
        (expired_eq_false_iff now p).mp he
      cases hc : containsKey p.account_id us with
      | false =>
        simp only [setActive, he, hc, Bool.false_eq_true, if_false] at h
        obtain ⟨u, hu, hm, hb, hr⟩ := ih h uid u' hl'
        exact ⟨u, hu, hm.imp_right ActiveRef.weaken, hb.imp_right ActiveRef.weaken,
          hr.imp_right ActiveRef.weaken⟩
      | true =>
        cases hps : punSetter p with
        | error e => simp [setActive, he, hc, hps] at h
        | ok f =>
          simp only [setActive, he, hc, hps, Bool.false_eq_true, if_false, if_true] at h
          obtain ⟨u1, hu1, hm, hb, hr⟩ := ih h uid u' hl'
          by_cases huid : uid = p.account_id
          · rw [huid, lookupA_updateA_self] at hu1
            obtain ⟨u0, hu0, hfu⟩ : ∃ u0, lookupA p.account_id us = some u0 ∧ f u0 = u1 := by
              cases hl0 : lookupA p.account_id us with
              | none => rw [hl0] at hu1; exact Option.noConfusion hu1
              | some u0 =>
                rw [hl0] at hu1
                exact ⟨u0, rfl, Option.some.injEq _ _ ▸ (by simpa using hu1)⟩
            refine ⟨u0, by rw [huid]; exact hu0, ?_, ?_, ?_⟩
            · rcases punSetter_ok_cases hps with ⟨ht, rfl⟩ | ⟨ht, rfl⟩ | ⟨ht, rfl⟩
              · rcases hm with hm | hm
                · exact Or.inr ⟨p, List.mem_cons_self p rest,
                    by rw [hm, ← hfu], huid.symm, ht, hlive⟩
                · exact Or.inr hm.weaken
              · rcases hm with hm | hm
                · exact Or.inl (by rw [hm, ← hfu])
                · exact Or.inr hm.weaken
              · rcases hm with hm | hm
                · exact Or.inl (by rw [hm, ← hfu])
                · exact Or.inr hm.weaken
            · rcases punSetter_ok_cases hps with ⟨ht, rfl⟩ | ⟨ht, rfl⟩ | ⟨ht, rfl⟩
              · rcases hb with hb | hb
                · exact Or.inl (by rw [hb, ← hfu])
                · exact Or.inr hb.weaken
              · rcases hb with hb | hb
                · exact Or.inr ⟨p, List.mem_cons_self p rest,
                    by rw [hb, ← hfu], huid.symm, ht, hlive⟩
                · exact Or.inr hb.weaken
              · rcases hb with hb | hb
                · exact Or.inl (by rw [hb, ← hfu])
                · exact Or.inr hb.weaken
            · rcases punSetter_ok_cases hps with ⟨ht, rfl⟩ | ⟨ht, rfl⟩ | ⟨ht, rfl⟩
              · rcases hr with hr | hr
                · exact Or.inl (by rw [hr, ← hfu])
                · exact Or.inr hr.weaken
              · rcases hr with hr | hr
                · exact Or.inl (by rw [hr, ← hfu])
                · exact Or.inr hr.weaken
              · rcases hr with hr | hr
                · exact Or.inr ⟨p, List.mem_cons_self p rest,
                    by rw [hr, ← hfu], huid.symm, ht, hlive⟩
                · exact Or.inr hr.weaken
          · rw [lookupA_updateA_ne uid p.account_id huid] at hu1
            exact ⟨u1, hu1, hm.imp_right ActiveRef.weaken, hb.imp_right ActiveRef.weaken,
              hr.imp_right ActiveRef.weaken⟩

/-- The active-id field a type name selects on a user record. -/
def activeF (t : String) (u : NewUser) : Int :=
  if t = "mute" then u.active_mute
  else if t = "ban" then u.active_ban
  else u.active_room_ban

/-- Frame property of the loop for one (user, type) pair: if no processed
punishment is live, for that account and of that type, the selected
active field keeps its value. -/
theorem setActive_frame (now : Int) {l : List NewPunishment}
    {us us' : List (Int × NewUser)} {ws ws' : List String} {uid : Int} {t : String}
    (h : setActive now l us ws = .ok (us', ws'))
    (ht : t ∈ (["mute", "ban", "roomban"] : List String))
    (hno : ∀ p ∈ l, ¬(p.account_id = uid ∧ p.type = t ∧ expired now p = false)) :
    ∀ u', lookupA uid us' = some u' →
      ∃ u, lookupA uid us = some u ∧ activeF t u' = activeF t u := by
  induction l generalizing us ws with
  | nil =>
    simp only [setActive, Except.ok.injEq, Prod.mk.injEq] at h
    rw [← h.1]
    exact fun u' h' => ⟨u', h', rfl⟩
  | cons p rest ih =>
    have hno' : ∀ p ∈ rest, ¬(p.account_id = uid ∧ p.type = t ∧ expired now p = false) :=
      fun r hr => hno r (List.mem_cons_of_mem p hr)
    intro u' hl'
    cases he : expired now p with
    | true =>
      simp only [setActive, he, if_true] at h
      exact ih h hno' u' hl'
    | false =>
      cases hc : containsKey p.account_id us with
      | false =>
        simp only [setActive, he, hc, Bool.false_eq_true, if_false] at h
        exact ih h hno' u' hl'
      | true =>
        cases hps : punSetter p with
        | error e => simp [setActive, he, hc, hps] at h
        | ok f =>
          simp only [setActive, he, hc, hps, Bool.false_eq_true, if_false, if_true] at h
          obtain ⟨u1, hu1, hf1⟩ := ih h hno' u' hl'
          by_cases huid : uid = p.account_id
          · have hpt : p.type ≠ t := by
              intro hpt
              exact hno p (List.mem_cons_self p rest) ⟨huid.symm, hpt, he⟩
            rw [huid, lookupA_updateA_self] at hu1
            obtain ⟨u0, hu0, hfu⟩ : ∃ u0, lookupA p.account_id us = some u0 ∧ f u0 = u1 := by
              cases hl0 : lookupA p.account_id us with
              | none => rw [hl0] at hu1; exact Option.noConfusion hu1
              | some u0 =>
                rw [hl0] at hu1
                exact ⟨u0, rfl, Option.some.injEq _ _ ▸ (by simpa using hu1)⟩
            refine ⟨u0, by rw [huid]; exact hu0, ?_⟩
            have ht3 : t = "mute" ∨ t = "ban" ∨ t = "roomban" := by simpa using ht
            have hactF : activeF t u1 = activeF t u0 := by
              rw [← hfu]
              rcases punSetter_ok_cases hps with ⟨hty, rfl⟩ | ⟨hty, rfl⟩ | ⟨hty, rfl⟩ <;>
                rcases ht3 with rfl | rfl | rfl <;>
                  first
                  | exact absurd hty hpt
                  | rfl
            rw [hf1, hactF]
          · rw [lookupA_updateA_ne uid p.account_id huid] at hu1
            exact ⟨u1, hu1, hf1⟩

/-- If some punishment in the list survives the expiry skip, targets an
account present in the dict and carries an unknown type, the loop raises
(possibly an earlier error, but never a normal return). -/
theorem setActive_error_of_unknown (now : Int) {l : List NewPunishment}
    {us : List (Int × NewUser)} {ws : List String}
    (hex : ∃ p ∈ l, expired now p = false ∧ containsKey p.account_id us = true ∧
      p.type ∉ (["mute", "ban", "roomban"] : List String)) :
    ∃ e, setActive now l us ws = .error e := by
  obtain ⟨p, hp, hpe, hpc, hpt⟩ := hex
  induction l generalizing us ws with
  | nil => simp at hp
  | cons q rest ih =>
    rcases List.mem_cons.mp hp with rfl | hp'
    · refine ⟨"Unknown punishment type: " ++ p.type, ?_⟩
      simp [setActive, hpe, hpc, punSetter_error_of_unknown hpt]
    · cases he : expired now q with
      | true =>
        obtain ⟨e, hrec⟩ := @ih us ws hp' hpc
        exact ⟨e, by simp [setActive, he, hrec]⟩
      | false =>
        cases hc : containsKey q.account_id us with
        | false =>
          obtain ⟨e, hrec⟩ := @ih us (ws ++ [orphanPunWarning q]) hp' hpc
          exact ⟨e, by simp [setActive, he, hc, hrec]⟩
        | true =>
          cases hps : punSetter q with
          | error e => exact ⟨e, by simp [setActive, he, hc, hps]⟩
          | ok f =>
            have hpc' : containsKey p.account_id (updateA q.account_id f us) = true := by
              rw [containsKey_updateA]; exact hpc
            obtain ⟨e, hrec⟩ := @ih (updateA q.account_id f us) ws hp' hpc'
            exact ⟨e, by simp [setActive, he, hc, hps, hrec]⟩

/-! ## Discord-link merge lemmas -/

/-- Erasing the discord id. -/
def stripDiscord (u : NewUser) : NewUser := { u with discord_id := none }

/-- The merge loop changes nothing in the user dict but discord ids:
keys, order and all other fields survive. -/
theorem mergeLinks_strip {g : List (Int × NewUser)} {links : List OldDiscordLink}
    {us us' : List (Int × NewUser)} {ws ws' : List String}
    (h : mergeLinks g links us ws = .ok (us', ws')) :
    us'.map (fun e => (e.1, stripDiscord e.2)) = us.map (fun e => (e.1, stripDiscord e.2)) := by
  induction links generalizing us ws with
  | nil =>
    simp only [mergeLinks, Except.ok.injEq, Prod.mk.injEq] at h
    rw [h.1]
  | cons link rest ih =>
    cases hg : containsKey link.gd_id g with
    | false =>
      simp only [mergeLinks, hg, Bool.false_eq_true, if_false] at h
      exact ih h
    | true =>
      cases hu : containsKey link.gd_id us with
      | false => simp [mergeLinks, hg, hu] at h
      | true =>
        simp only [mergeLinks, hg, hu, if_true] at h
        rw [ih h]
        exact map_strip_updateA link.gd_id
          (fun u => { u with discord_id := some link.discord_id }) stripDiscord
          (fun u => rfl) us

/-- A key no remaining link targets keeps its record through the merge
loop. -/
theorem mergeLinks_lookup_frame {g : List (Int × NewUser)} {links : List OldDiscordLink}
    {us us' : List (Int × NewUser)} {ws ws' : List String} {k : Int}
    (h : mergeLinks g links us ws = .ok (us', ws'))
    (hno : ∀ r ∈ links, r.gd_id ≠ k) :
    lookupA k us' = lookupA k us := by
  induction links generalizing us ws with
  | nil =>
    simp only [mergeLinks, Except.ok.injEq, Prod.mk.injEq] at h
    rw [h.1]
  | cons link rest ih =>
    have hno' : ∀ r ∈ rest, r.gd_id ≠ k := fun r hr => hno r (List.mem_cons_of_mem link hr)
    cases hg : containsKey link.gd_id g with
    | false =>
      simp only [mergeLinks, hg, Bool.false_eq_true, if_false] at h
      exact ih h hno'
    | true =>
      cases hu : containsKey link.gd_id us with
      | false => simp [mergeLinks, hg, hu] at h
      | true =>
        simp only [mergeLinks, hg, hu, if_true] at h
        rw [ih h hno']
        exact lookupA_updateA_ne k link.gd_id
          (fun hk => hno link (List.mem_cons_self link rest) (hk ▸ rfl)) _ us

/-- Links whose targets all miss the dict are warned about and merge
nothing. -/
theorem mergeLinks_all_orphans {g : List (Int × NewUser)} {links : List OldDiscordLink}
    (us : List (Int × NewUser)) (ws : List String)
    (hno : ∀ link ∈ links, containsKey link.gd_id g = false) :
    mergeLinks g links us ws = .ok (us, ws ++ links.map orphanLinkWarning) := by
  induction links generalizing ws with
  | nil => simp [mergeLinks]
  | cons link rest ih =>
    have h0 := hno link (List.mem_cons_self link rest)
    have ih' := ih (ws ++ [orphanLinkWarning link])
      (fun r hr => hno r (List.mem_cons_of_mem link hr))
    simp only [mergeLinks, h0, Bool.false_eq_true, if_false]
    rw [ih']
    simp

/-- With pairwise-distinct targets, a link whose target is present in
both the membership dict and the mutated dict ends up recorded: the
user's final discord id is that link's. -/
theorem mergeLinks_sets_discord {g : List (Int × NewUser)} {links : List OldDiscordLink}
    {us us' : List (Int × NewUser)} {ws ws' : List String} {link : OldDiscordLink}
    (h : mergeLinks g links us ws = .ok (us', ws'))
    (hnd : (links.map OldDiscordLink.gd_id).Nodup)
    (hmem : link ∈ links) (hus : containsKey link.gd_id us = true)
    (hg0 : containsKey link.gd_id g = true) :
    ∃ u, lookupA link.gd_id us' = some u ∧ u.discord_id = some link.discord_id := by
  induction links generalizing us ws with
  | nil => simp at hmem
  | cons l0 rest ih =>
    have hnd' : (rest.map OldDiscordLink.gd_id).Nodup := (List.nodup_cons.mp hnd).2
    rcases List.mem_cons.mp hmem with rfl | hmem'
    · -- the loop reaches `link` first; its target is in the global dict
      -- (`hg0`) and in the mutated dict (`hus`), so the write happens.
      simp only [mergeLinks, hg0, hus, if_true] at h
      have hlater : ∀ r ∈ rest, r.gd_id ≠ link.gd_id := by
        intro r hr
        have := (List.nodup_cons.mp hnd).1
        intro hrk
        exact this (hrk ▸ List.mem_map_of_mem OldDiscordLink.gd_id hr)
      rw [mergeLinks_lookup_frame h hlater, lookupA_updateA_self]
      obtain ⟨u0, hu0⟩ := lookupA_some_of_containsKey hus
      exact ⟨{ u0 with discord_id := some link.discord_id }, by rw [hu0]; rfl, rfl⟩
    · cases hg : containsKey l0.gd_id g with
      | false =>
        simp only [mergeLinks, hg, Bool.false_eq_true, if_false] at h
        exact ih h hnd' hmem' hus
      | true =>
        cases hu : containsKey l0.gd_id us with
        | false => simp [mergeLinks, hg, hu] at h
        | true =>
          simp only [mergeLinks, hg, hu, if_true] at h
          exact ih h hnd' hmem' (by rw [containsKey_updateA]; exact hus)

/-! ## Inversion and small glue lemmas -/

/-- A successful dict read is a membership. -/
theorem lookupA_mem {k : Int} {l : List (Int × α)} {v : α}
    (h : lookupA k l = some v) : (k, v) ∈ l := by
  induction l with
  | nil => simp [lookupA] at h
  | cons e rest ih =>
    by_cases he : e.1 = k
    · simp only [lookupA, if_pos he] at h
      injection h with hv
      exact List.mem_cons.mpr (Or.inl (by rw [← he, ← hv]))
    · simp only [lookupA, if_neg he] at h
      exact List.mem_cons_of_mem e (ih h)

/-- Unfolding a successful `migrate_punishments` run into its parts. -/
theorem migratePunishments_ok_inv {now : Int} {rows : List PunRow}
    {users us' : List (Int × NewUser)} {puns : List NewPunishment}
    {logs : List AuditLog} {ws : List String}
    (h : migratePunishments now rows users = .ok (us', puns, logs, ws)) :
    puns = rows.map convPun ∧ logs = puns.map auditOf ∧
      setActive now (rows.map convPun) users [] = .ok (us', ws) := by
  simp only [migratePunishments] at h
  cases hs : setActive now (rows.map convPun) users [] with
  | error e => rw [hs] at h; exact Except.noConfusion h
  | ok r =>
    obtain ⟨a, b⟩ := r
    rw [hs] at h
    injection h with h'
    obtain ⟨h1, h2, h3, h4⟩ : a = us' ∧ rows.map convPun = puns ∧
        (rows.map convPun).map auditOf = logs ∧ b = ws := by
      simpa [Prod.ext_iff] using h'
    refine ⟨h2.symm, ?_, ?_⟩
    · rw [← h3, h2]
    · rw [← h1, ← h4]

/-- A list is pointwise related to its own map. -/
theorem forall₂_map_self {R : α → β → Prop} (f : α → β) (hf : ∀ a, R a (f a)) :
    ∀ l : List α, List.Forall₂ R l (l.map f)
  | [] => .nil
  | a :: rest => .cons (hf a) (forall₂_map_self f hf rest)

/-! ## The claims -/

/-- C1: after `migrate_punishments` completes on the migrated-user
mapping, every user's `active_mute`, `active_ban` and `active_room_ban`
is either `0` or the id of some punishment in the returned list whose
account id is the user's, whose effective type matches the field, and
whose expiry is `0` or at least the reconciliation timestamp `now`; in
particular no punishment with nonzero expiry strictly before `now` backs
an active id. -/
theorem claim1_active_ids_valid (now : Int) (userRows : List UserRow)
    (punRows : List PunRow) (us' : List (Int × NewUser)) (puns : List NewPunishment)
    (logs : List AuditLog) (ws : List String)
    (h : migratePunishments now punRows (migrateUsers userRows) = .ok (us', puns, logs, ws)) :
    ∀ uid u, lookupA uid us' = some u →
      (u.active_mute = 0 ∨ ActiveRef now puns uid "mute" u.active_mute) ∧
      (u.active_ban = 0 ∨ ActiveRef now puns uid "ban" u.active_ban) ∧
      (u.active_room_ban = 0 ∨ ActiveRef now puns uid "roomban" u.active_room_ban) := by
  obtain ⟨hpuns, _, hset⟩ := migratePunishments_ok_inv h
  rw [← hpuns] at hset
  intro uid u hu
  obtain ⟨u0, hu0, hm, hb, hr⟩ := setActive_active_src now hset uid u hu
  obtain ⟨hm0, hb0, hr0⟩ := migrateUsers_active_zero userRows (uid, u0) (lookupA_mem hu0)
  exact ⟨hm.imp_left (fun h' => h'.trans hm0), hb.imp_left (fun h' => h'.trans hb0),
    hr.imp_left (fun h' => h'.trans hr0)⟩

/-- C1 witness: a single live mute for user 5 ends recorded and valid. -/
theorem claim1_active_ids_valid_witness :
    ((1 : Int) = 0 ∨
      ActiveRef 100 [⟨1, 5, "mute", "r", 0, none, none⟩] 5 "mute" 1) ∧
    ((0 : Int) = 0 ∨
      ActiveRef 100 [⟨1, 5, "mute", "r", 0, none, none⟩] 5 "ban" 0) ∧
    ((0 : Int) = 0 ∨
      ActiveRef 100 [⟨1, 5, "mute", "r", 0, none, none⟩] 5 "roomban" 0) :=
  claim1_active_ids_valid 100 [⟨5, "alice", "c", 1, "", "h"⟩]
    [⟨1, 5, "mute", "r", 0, none, none, none⟩]
    [(5, ⟨5, 0, 0, 0, 0, "alice", "c", true, "h", [], 1, 0, 0, none⟩)]
    [⟨1, 5, "mute", "r", 0, none, none⟩] [⟨0, "mute", 0, 5, "r", 0⟩] [] rfl
    5 ⟨5, 0, 0, 0, 0, "alice", "c", true, "h", [], 1, 0, 0, none⟩ rfl

/-- C2: a normal return of `migrate_punishments` carries exactly one
`NewPunishment` per legacy row — fields copied, type resolved by the
override rule — and exactly one `AuditLog` per punishment with actor =
issuer id (`0` when falsy/absent), type = effective type, timestamp =
issued timestamp (`0` when falsy/absent), target = account id, message =
reason and expiry = punishment expiry; nothing is filtered. -/
theorem claim2_total_conversion (now : Int) (rows : List PunRow)
    (users us' : List (Int × NewUser)) (puns : List NewPunishment)
    (logs : List AuditLog) (ws : List String)
    (h : migratePunishments now rows users = .ok (us', puns, logs, ws)) :
    List.Forall₂ (fun (r : PunRow) (p : NewPunishment) =>
        p.id = r.pid ∧ p.account_id = r.aid ∧ p.type = effType r.type2 r.ptype ∧
        p.reason = r.reason ∧ p.expires_at = r.expires_at ∧
        p.issued_by = r.issued_by ∧ p.issued_at = r.issued_at) rows puns ∧
    List.Forall₂ (fun (p : NewPunishment) (a : AuditLog) =>
        a.account_id = pyOrZero p.issued_by ∧ a.type = p.type ∧
        a.timestamp = pyOrZero p.issued_at ∧ a.target_account_id = p.account_id ∧
        a.message = p.reason ∧ a.expires_at = p.expires_at) puns logs ∧
    puns.length = rows.length ∧ logs.length = puns.length := by
  obtain ⟨hpuns, hlogs, _⟩ := migratePunishments_ok_inv h
  subst hpuns
  subst hlogs
  refine ⟨forall₂_map_self convPun (fun r => ⟨rfl, rfl, rfl, rfl, rfl, rfl, rfl⟩) rows,
    forall₂_map_self auditOf (fun p => ⟨rfl, rfl, rfl, rfl, rfl, rfl⟩) _, by simp, by simp⟩

/-- C2 witness: one row with a type override and an orphaned target still
yields one punishment and one audit entry with the stated fields. -/
theorem claim2_total_conversion_witness :
    List.Forall₂ (fun (r : PunRow) (p : NewPunishment) =>
        p.id = r.pid ∧ p.account_id = r.aid ∧ p.type = effType r.type2 r.ptype ∧
        p.reason = r.reason ∧ p.expires_at = r.expires_at ∧
        p.issued_by = r.issued_by ∧ p.issued_at = r.issued_at)
      [⟨1, 5, "ban", "r", 0, none, some 8, some "mute"⟩]
      [⟨1, 5, "mute", "r", 0, none, some 8⟩] ∧
    List.Forall₂ (fun (p : NewPunishment) (a : AuditLog) =>
        a.account_id = pyOrZero p.issued_by ∧ a.type = p.type ∧
        a.timestamp = pyOrZero p.issued_at ∧ a.target_account_id = p.account_id ∧
        a.message = p.reason ∧ a.expires_at = p.expires_at)
      [⟨1, 5, "mute", "r", 0, none, some 8⟩] [⟨0, "mute", 8, 5, "r", 0⟩] ∧
    ([⟨1, 5, "mute", "r", 0, none, some 8⟩] : List NewPunishment).length =
      ([⟨1, 5, "ban", "r", 0, none, some 8, some "mute"⟩] : List PunRow).length ∧
    ([⟨0, "mute", 8, 5, "r", 0⟩] : List AuditLog).length =
      ([⟨1, 5, "mute", "r", 0, none, some 8⟩] : List NewPunishment).length :=
  claim2_total_conversion 100 [⟨1, 5, "ban", "r", 0, none, some 8, some "mute"⟩] [] []
    [⟨1, 5, "mute", "r", 0, none, some 8⟩] [⟨0, "mute", 8, 5, "r", 0⟩]
    ["Warning: Punishment ID 1 for non-existent user ID 5"] rfl

/-- C3 counterexample: an input containing a punishment of unknown
effective type does NOT abort when that punishment is expired — the
expiry skip runs before the type dispatch, so `migrate_punishments`
returns normally. -/
theorem claim3_counterexample :
    effType (none : Option String) "frozen" ∉ (["mute", "ban", "roomban"] : List String) ∧
    migratePunishments 100 [⟨1, 5, "frozen", "r", 1, none, none, none⟩]
        (migrateUsers [⟨5, "alice", "c", 1, "", "h"⟩]) =
      .ok (migrateUsers [⟨5, "alice", "c", 1, "", "h"⟩],
        [⟨1, 5, "frozen", "r", 1, none, none⟩],
        [⟨0, "frozen", 0, 5, "r", 1⟩], []) :=
  ⟨by decide, rfl⟩

/-- C3 (amended): a punishment that reaches the type dispatch — one that
is non-expired and whose account id exists in the user mapping — with an
effective type outside mute/ban/roomban makes `migrate_punishments` raise
a fatal error, and the aborted run never replaces the target store (an
expired or orphaned punishment of unknown type is skipped instead). -/
theorem claim3_unknown_type_aborts (now : Int) (userRows : List UserRow)
    (punRows : List PunRow) (src : Option (List OldDiscordRole × List OldDiscordLink))
    (r : PunRow) (hr : r ∈ punRows)
    (hexp : expired now (convPun r) = false)
    (hmem : containsKey r.aid (migrateUsers userRows) = true)
    (hty : effType r.type2 r.ptype ∉ (["mute", "ban", "roomban"] : List String)) :
    ∃ e, migratePunishments now punRows (migrateUsers userRows) = .error e ∧
      ∀ db : TargetDB, runUserPush now userRows punRows src db = .error e := by
  have hex : ∃ p ∈ punRows.map convPun, expired now p = false ∧
      containsKey p.account_id (migrateUsers userRows) = true ∧
      p.type ∉ (["mute", "ban", "roomban"] : List String) :=
    ⟨convPun r, List.mem_map_of_mem convPun hr, hexp, hmem, hty⟩
  obtain ⟨e, he⟩ := setActive_error_of_unknown now hex
  have hmp : migratePunishments now punRows (migrateUsers userRows) = .error e := by
    simp only [migratePunishments]
    rw [he]
  refine ⟨e, hmp, fun db => ?_⟩
  simp only [runUserPush]
  rw [hmp]

/-- C3 witness: a live, non-orphaned punishment of type "frozen" aborts
the run, leaving any target store unreplaced. -/
theorem claim3_unknown_type_aborts_witness :
    ∃ e, migratePunishments 100 [⟨1, 5, "frozen", "r", 0, none, none, none⟩]
        (migrateUsers [⟨5, "alice", "c", 1, "", "h"⟩]) = .error e ∧
      ∀ db : TargetDB, runUserPush 100 [⟨5, "alice", "c", 1, "", "h"⟩]
        [⟨1, 5, "frozen", "r", 0, none, none, none⟩] none db = .error e :=
  claim3_unknown_type_aborts 100 [⟨5, "alice", "c", 1, "", "h"⟩]
    [⟨1, 5, "frozen", "r", 0, none, none, none⟩] none
    ⟨1, 5, "frozen", "r", 0, none, none, none⟩ (by decide) (by decide) (by decide) (by decide)

/-- C4 counterexample: the user-table insert writes the `name_color`
column as NULL, not the migrated record's name color. -/
theorem claim4_counterexample :
    (migrateUsers [⟨5, "alice", "ff0000", 1, "", "h"⟩]).map (fun e => e.2.name_color) =
      ["ff0000"] ∧
    (pushNewUsers ⟨[], [], []⟩ (migrateUsers [⟨5, "alice", "ff0000", 1, "", "h"⟩]) [] []).user.map
        (fun r => r.name_color) = [none] ∧
    (none : Option String) ≠ some "ff0000" :=
  ⟨rfl, rfl, by decide⟩

/-- C4 (amended): `push_new_users` inserts exactly one target user row
per migrated user whose columns equal the record's fields — account id,
the four cosmetic fields, username, whitelist flag as an integer, admin
password hash, comma-joined role string, the three active ids and the
optional discord id — except that the `name_color` column is always
written as NULL instead of the record's name color. -/
theorem claim4_user_insert (db : TargetDB) (users : List (Int × NewUser))
    (puns : List NewPunishment) (logs : List AuditLog) :
    (pushNewUsers db users puns logs).user.length = users.length ∧
    (pushNewUsers db users puns logs).user = users.map (fun e =>
      { account_id := e.2.id
        cube := e.2.cube
        color1 := e.2.color1
        color2 := e.2.color2
        glow_color := e.2.glow_color
        username := e.2.username
        name_color := none
        is_whitelisted := if e.2.whitelisted then 1 else 0
        admin_password_hash := e.2.admin_password_hash
        roles := String.intercalate "," e.2.roles
        active_mute := e.2.active_mute
        active_ban := e.2.active_ban
        active_room_ban := e.2.active_room_ban
        discord_id := e.2.discord_id }) :=
  ⟨by simp [pushNewUsers], rfl⟩

/-- C5: the resolver takes the first two `#` segments, reads the primary
segment as alternating key/value tokens (key "2" = level name, key "6" =
player id), cross-validates the player id against the first field of the
extra segment — mismatch being fatal — and returns (name, third extra
field as integer, second extra field); on the spec's example it returns
("MyLevel", 777, "someuser"). -/
theorem claim5_protocol_parse :
    fetchLevelData (some "token") (fun _ => some "2:MyLevel:6:42#42:someuser:777") 10 =
      .ok ("MyLevel", 777, "someuser") ∧
    parseLevelResponse "2:MyLevel:6:42#42:someuser:777" = .ok ("MyLevel", 777, "someuser") ∧
    parseLevelResponse "2:MyLevel:6:42#42:someuser:777#a:b:c#d" =
      .ok ("MyLevel", 777, "someuser") ∧
    parseLevelResponse "6:42:2:MyLevel#42:someuser:777:ignored" =
      .ok ("MyLevel", 777, "someuser") ∧
    parseLevelResponse "2:MyLevel:6:42#43:someuser:777" =
      .error "AssertionError: id mismatch" :=
  ⟨rfl, rfl, rfl, rfl, rfl⟩

/-- C6: with punishments processed in ascending id order, of several
non-expired punishments of one effective type for one existing user the
one with the highest id — processed last — ends up as the user's active
id for that type, overwriting every earlier assignment. -/
theorem claim6_last_wins (now : Int) (punRows : List PunRow)
    (users us' : List (Int × NewUser)) (puns : List NewPunishment)
    (logs : List AuditLog) (ws : List String) (t : String) (uid : Int)
    (p q : NewPunishment)
    (h : migratePunishments now punRows users = .ok (us', puns, logs, ws))
    (ht : t ∈ (["mute", "ban", "roomban"] : List String))
    (hsort : puns.Pairwise (fun a b => a.id < b.id))
    (_hp : p ∈ puns) (hq : q ∈ puns)
    (_hpe : expired now p = false) (hqe : expired now q = false)
    (_hpa : p.account_id = uid) (hqa : q.account_id = uid)
    (_hpt : p.type = t) (hqt : q.type = t)
    (_hpq : p.id < q.id)
    (hmax : ∀ r ∈ puns, expired now r = false → r.account_id = uid → r.type = t →
      r.id ≤ q.id)
    (hu : containsKey uid users = true) :
    ∃ u, lookupA uid us' = some u ∧ activeF t u = q.id := by
  obtain ⟨hpuns, _, hset⟩ := migratePunishments_ok_inv h
  rw [← hpuns] at hset
  obtain ⟨l1, l2, rfl⟩ := List.append_of_mem hq
  have hpw := List.pairwise_append.mp hsort
  have hq2 : ∀ r ∈ l2, q.id < r.id := (List.pairwise_cons.mp hpw.2.1).1
  have hno2 : ∀ r ∈ l2, ¬(r.account_id = uid ∧ r.type = t ∧ expired now r = false) := by
    rintro r hr ⟨hra, hrt, hre⟩
    have hle := hmax r (List.mem_append.mpr (Or.inr (List.mem_cons_of_mem q hr))) hre hra hrt
    exact absurd hle (not_le.mpr (hq2 r hr))
  rw [setActive_append] at hset
  cases h1 : setActive now l1 users [] with
  | error e => rw [h1] at hset; exact Except.noConfusion hset
  | ok r1 =>
    obtain ⟨us1, ws1⟩ := r1
    rw [h1] at hset
    have hu1 : containsKey uid us1 = true := by
      rw [setActive_containsKey now h1]; exact hu
    have hcq : containsKey q.account_id us1 = true := by rw [hqa]; exact hu1
    obtain ⟨u1, hlu1⟩ := lookupA_some_of_containsKey hu1
    have ht3 : t = "mute" ∨ t = "ban" ∨ t = "roomban" := by simpa using ht
    rcases ht3 with rfl | rfl | rfl
    · have hps : punSetter q = .ok (fun u => { u with active_mute := q.id }) := by
        simp [punSetter, hqt]
      simp only [setActive, hqe, hcq, hps, Bool.false_eq_true, if_false, if_true] at hset
      have hk' : containsKey uid us' = true := by
        rw [setActive_containsKey now hset, containsKey_updateA]
        exact hu1
      obtain ⟨u', hlu'⟩ := lookupA_some_of_containsKey hk'
      obtain ⟨u2, hlu2, hact⟩ := setActive_frame now hset (by simp) hno2 u' hlu'
      refine ⟨u', hlu', ?_⟩
      rw [hact]
      rw [hqa, lookupA_updateA_self, hlu1] at hlu2
      injection hlu2 with hu2
      rw [← hu2]
      rfl
    · have hps : punSetter q = .ok (fun u => { u with active_ban := q.id }) := by
        simp [punSetter, hqt]
      simp only [setActive, hqe, hcq, hps, Bool.false_eq_true, if_false, if_true] at hset
      have hk' : containsKey uid us' = true := by
        rw [setActive_containsKey now hset, containsKey_updateA]
        exact hu1
      obtain ⟨u', hlu'⟩ := lookupA_some_of_containsKey hk'
      obtain ⟨u2, hlu2, hact⟩ := setActive_frame now hset (by simp) hno2 u' hlu'
      refine ⟨u', hlu', ?_⟩
      rw [hact]
      rw [hqa, lookupA_updateA_self, hlu1] at hlu2
      injection hlu2 with hu2
      rw [← hu2]
      rfl
    · have hps : punSetter q = .ok (fun u => { u with active_room_ban := q.id }) := by
        simp [punSetter, hqt]
      simp only [setActive, hqe, hcq, hps, Bool.false_eq_true, if_false, if_true] at hset
      have hk' : containsKey uid us' = true := by
        rw [setActive_containsKey now hset, containsKey_updateA]
        exact hu1
      obtain ⟨u', hlu'⟩ := lookupA_some_of_containsKey hk'
      obtain ⟨u2, hlu2, hact⟩ := setActive_frame now hset (by simp) hno2 u' hlu'
      refine ⟨u', hlu', ?_⟩
      rw [hact]
      rw [hqa, lookupA_updateA_self, hlu1] at hlu2
      injection hlu2 with hu2
      rw [← hu2]
      rfl

/-- C6 witness: two live mutes for user 5, ids 1 then 2 — the active mute
ends as 2. -/
theorem claim6_last_wins_witness :
    ∃ u, lookupA 5
        [(5, (⟨5, 0, 0, 0, 0, "alice", "c", true, "h", [], 2, 0, 0, none⟩ : NewUser))] =
      some u ∧ activeF "mute" u = 2 :=
  claim6_last_wins 100
    [⟨1, 5, "mute", "r", 0, none, none, none⟩, ⟨2, 5, "mute", "r2", 0, none, none, none⟩]
    [(5, ⟨5, 0, 0, 0, 0, "alice", "c", true, "h", [], 0, 0, 0, none⟩)]
    [(5, ⟨5, 0, 0, 0, 0, "alice", "c", true, "h", [], 2, 0, 0, none⟩)]
    [⟨1, 5, "mute", "r", 0, none, none⟩, ⟨2, 5, "mute", "r2", 0, none, none⟩]
    [⟨0, "mute", 0, 5, "r", 0⟩, ⟨0, "mute", 0, 5, "r2", 0⟩] []
    "mute" 5 ⟨1, 5, "mute", "r", 0, none, none⟩ ⟨2, 5, "mute", "r2", 0, none, none⟩
    rfl (by decide) (by decide) (by decide) (by decide) (by decide) (by decide)
    (by decide) (by decide) (by decide) (by decide) (by decide) (by decide) (by decide)

/-- C7: with no authorization credential configured (variable absent or
empty), the resolver returns ("", 0, "") for any level id without
consulting the network oracle. -/
theorem claim7_no_token_soft (tokenEnv : Option String)
    (h : tokenEnv = none ∨ tokenEnv = some "")
    (net : Int → Option String) (levelId : Int) :
    fetchLevelData tokenEnv net levelId = .ok ("", 0, "") := by
  rcases h with rfl | rfl <;> rfl

/-- C7 witness: even against a network that would fail every request, an
absent token yields the degraded result. -/
theorem claim7_no_token_soft_witness :
    fetchLevelData none (fun _ => none) 123 = .ok ("", 0, "") :=
  claim7_no_token_soft none (Or.inl rfl) (fun _ => none) 123

/-- C8: with no link source the merge step is an immediate no-op; with a
source, a link whose target exists in the mapping ends with that user's
discord id set to the link's (targets pairwise distinct), and links whose
targets are all absent yield one warning each and leave the mapping
unchanged. -/
theorem claim8_discord_merge :
    (∀ (g us : List (Int × NewUser)), migrateDiscordLinks none g us = .ok (us, [])) ∧
    (∀ (roles : List OldDiscordRole) (links : List OldDiscordLink)
        (users us' : List (Int × NewUser)) (ws : List String) (link : OldDiscordLink),
      (links.map OldDiscordLink.gd_id).Nodup → link ∈ links →
      containsKey link.gd_id users = true →
      migrateDiscordLinks (some (roles, links)) users users = .ok (us', ws) →
      ∃ u, lookupA link.gd_id us' = some u ∧ u.discord_id = some link.discord_id) ∧
    (∀ (roles : List OldDiscordRole) (links : List OldDiscordLink)
        (users : List (Int × NewUser)),
      (∀ link ∈ links, containsKey link.gd_id users = false) →
      migrateDiscordLinks (some (roles, links)) users users =
        .ok (users, links.map orphanLinkWarning)) := by
  refine ⟨fun g us => rfl, ?_, ?_⟩
  · intro roles links users us' ws link hnd hmem hus h
    simp only [migrateDiscordLinks] at h
    exact mergeLinks_sets_discord h hnd hmem hus hus
  · intro roles links users hno
    simp only [migrateDiscordLinks]
    simpa using mergeLinks_all_orphans users [] hno

/-- C8 witness: a link for account 555 sets its discord id to 777; a link
for the missing account 999 only warns; no source is a no-op. -/
theorem claim8_discord_merge_witness :
    migrateDiscordLinks none []
        [(555, (⟨555, 0, 0, 0, 0, "u", "c", false, "h", [], 0, 0, 0, none⟩ : NewUser))] =
      .ok ([(555, (⟨555, 0, 0, 0, 0, "u", "c", false, "h", [], 0, 0, 0, none⟩ : NewUser))], []) ∧
    (∃ u, lookupA 555
        [(555, (⟨555, 0, 0, 0, 0, "u", "c", false, "h", [], 0, 0, 0, some 777⟩ : NewUser))] =
      some u ∧ u.discord_id = some 777) ∧
    migrateDiscordLinks (some ([], [⟨42, 999⟩]))
        [(555, (⟨555, 0, 0, 0, 0, "u", "c", false, "h", [], 0, 0, 0, none⟩ : NewUser))]
        [(555, (⟨555, 0, 0, 0, 0, "u", "c", false, "h", [], 0, 0, 0, none⟩ : NewUser))] =
      .ok ([(555, (⟨555, 0, 0, 0, 0, "u", "c", false, "h", [], 0, 0, 0, none⟩ : NewUser))],
        ["Warning: Discord link for GD ID 999 (42) has no matching user"]) :=
  ⟨claim8_discord_merge.1 []
      [(555, (⟨555, 0, 0, 0, 0, "u", "c", false, "h", [], 0, 0, 0, none⟩ : NewUser))],
    claim8_discord_merge.2.1 [] [⟨777, 555⟩]
      [(555, (⟨555, 0, 0, 0, 0, "u", "c", false, "h", [], 0, 0, 0, none⟩ : NewUser))]
      [(555, (⟨555, 0, 0, 0, 0, "u", "c", false, "h", [], 0, 0, 0, some 777⟩ : NewUser))]
      [] ⟨777, 555⟩ (by decide) (by decide) (by decide) rfl,
    claim8_discord_merge.2.2 [] [⟨42, 999⟩]
      [(555, (⟨555, 0, 0, 0, 0, "u", "c", false, "h", [], 0, 0, 0, none⟩ : NewUser))]
      (by decide)⟩

/-- C9: the destructive replace-then-insert write is idempotent — running
either push a second time over the state the first run produced, with the
same inputs, changes nothing. -/
theorem claim9_write_idempotent (db : TargetDB) (fdb : FeatDB) (fc : Bool)
    (users : List (Int × NewUser)) (puns : List NewPunishment)
    (logs : List AuditLog) (feats : List NewFeaturedLevel) :
    pushNewUsers (pushNewUsers db users puns logs) users puns logs =
      pushNewUsers db users puns logs ∧
    pushFeatures fc (pushFeatures fc fdb feats) feats = pushFeatures fc fdb feats := by
  constructor
  · rfl
  · cases fc <;> simp [pushFeatures]

/-- C10: reconciliation touches at most the three active ids and the link
merge touches at most the discord id — all other user fields, the key
set and its order are preserved by both. -/
theorem claim10_frame_preservation :
    (∀ (now : Int) (rows : List PunRow) (users us' : List (Int × NewUser))
        (puns : List NewPunishment) (logs : List AuditLog) (ws : List String),
      migratePunishments now rows users = .ok (us', puns, logs, ws) →
      us'.map (fun e => (e.1, stripActive e.2)) =
        users.map (fun e => (e.1, stripActive e.2))) ∧
    (∀ (src : Option (List OldDiscordRole × List OldDiscordLink))
        (users us' : List (Int × NewUser)) (ws : List String),
      migrateDiscordLinks src users users = .ok (us', ws) →
      us'.map (fun e => (e.1, stripDiscord e.2)) =
        users.map (fun e => (e.1, stripDiscord e.2))) := by
  constructor
  · intro now rows users us' puns logs ws h
    obtain ⟨_, _, hset⟩ := migratePunishments_ok_inv h
    exact setActive_strip now hset
  · intro src users us' ws h
    cases src with
    | none =>
      simp only [migrateDiscordLinks, Except.ok.injEq, Prod.mk.injEq] at h
      rw [h.1]
    | some sr =>
      obtain ⟨roles, links⟩ := sr
      simp only [migrateDiscordLinks] at h
      exact mergeLinks_strip h

/-- C10 witness: a mute write and a discord write each leave the stripped
records of the concrete runs untouched. -/
theorem claim10_frame_preservation_witness :
    [((5 : Int), (⟨5, 0, 0, 0, 0, "alice", "c", true, "h", [], 2, 0, 0, none⟩ : NewUser))].map
        (fun e => (e.1, stripActive e.2)) =
      [((5 : Int), (⟨5, 0, 0, 0, 0, "alice", "c", true, "h", [], 0, 0, 0, none⟩ : NewUser))].map
        (fun e => (e.1, stripActive e.2)) ∧
    [((555 : Int), (⟨555, 0, 0, 0, 0, "u", "c", false, "h", [], 0, 0, 0, some 777⟩ : NewUser))].map
        (fun e => (e.1, stripDiscord e.2)) =
      [((555 : Int), (⟨555, 0, 0, 0, 0, "u", "c", false, "h", [], 0, 0, 0, none⟩ : NewUser))].map
        (fun e => (e.1, stripDiscord e.2)) :=
  ⟨claim10_frame_preservation.1 100
      [⟨1, 5, "mute", "r", 0, none, none, none⟩, ⟨2, 5, "mute", "r2", 0, none, none, none⟩]
      [(5, ⟨5, 0, 0, 0, 0, "alice", "c", true, "h", [], 0, 0, 0, none⟩)]
      [(5, ⟨5, 0, 0, 0, 0, "alice", "c", true, "h", [], 2, 0, 0, none⟩)]
      [⟨1, 5, "mute", "r", 0, none, none⟩, ⟨2, 5, "mute", "r2", 0, none, none⟩]
      [⟨0, "mute", 0, 5, "r", 0⟩, ⟨0, "mute", 0, 5, "r2", 0⟩] [] rfl,
    claim10_frame_preservation.2 (some ([], [⟨777, 555⟩]))
      [(555, ⟨555, 0, 0, 0, 0, "u", "c", false, "h", [], 0, 0, 0, none⟩)]
      [(555, ⟨555, 0, 0, 0, 0, "u", "c", false, "h", [], 0, 0, 0, some 777⟩)] [] rfl⟩

end DbMigrate
